import Mathlib

/-!
Verification development for the agent-tree delegation core of
`FlowerRealm/realmx` (`codex-rs`): the worker runtime
(`cli/src/agent_tree_worker.rs`), the IPC codec
(`core/src/agent_tree/ipc.rs`) and the config layer source ordering
(`core/src/config_loader/config_layer_source.rs`), shallowly embedded in
Lean 4.  Rust strings are modelled as Lean `String` where only character
content matters, and as UTF-8 byte lists (`List Nat`) where byte-level
slicing matters (`truncate_output`).
-/

namespace RealmX

/-! ## UTF-8 byte model

`truncate_output` slices a Rust `&str` at a byte index, an operation that
panics when the index is not a character boundary.  We model Rust strings
at the byte level as `List Nat` together with UTF-8 encoding of Lean
strings, and model the fallible slice with `Option`. -/

/-- UTF-8 encoding of a single character (standard 1-4 byte scheme). -/
def utf8Bytes (c : Char) : List Nat :=
  let n := c.toNat
  if n < 0x80 then [n]
  else if n < 0x800 then
    [0xC0 ||| (n >>> 6), 0x80 ||| (n &&& 0x3F)]
  else if n < 0x10000 then
    [0xE0 ||| (n >>> 12), 0x80 ||| ((n >>> 6) &&& 0x3F), 0x80 ||| (n &&& 0x3F)]
  else
    [0xF0 ||| (n >>> 18), 0x80 ||| ((n >>> 12) &&& 0x3F),
     0x80 ||| ((n >>> 6) &&& 0x3F), 0x80 ||| (n &&& 0x3F)]

/-- UTF-8 byte sequence of a Lean string (model of Rust `str::as_bytes`). -/
def strBytes (s : String) : List Nat :=
  (s.data.map utf8Bytes).flatten

/-- The literal truncation marker `"\n…(truncated)…\n"` as UTF-8 bytes.
`…` (U+2026) encodes as the three bytes `0xE2 0x80 0xA6`. -/
def truncationMarker : List Nat :=
  strBytes "\n…(truncated)…\n"

/-- Rust `str::is_char_boundary` on the byte representation: true at 0 and
at the length, and at any index whose byte is not a UTF-8 continuation
byte (`0x80 ≤ b < 0xC0`). -/
def is_char_boundary (bytes : List Nat) (i : Nat) : Bool :=
  if i = 0 then true
  else
    match bytes[i]? with
    | none => i = bytes.length
    | some b => decide (b < 0x80 ∨ 0xC0 ≤ b)

/-- Embedding of `truncate_output` from `cli/src/agent_tree_worker.rs`:

```rust
fn truncate_output(text: &str, max_bytes: usize) -> String {
    if text.len() <= max_bytes {
        return text.to_string();
    }
    let mut out = text[..max_bytes].to_string();
    out.push_str("\n…(truncated)…\n");
    out
}
```

The byte-range slice `text[..max_bytes]` panics when `max_bytes` is not a
character boundary; the panic is modelled as `none`. -/
def truncate_output (text : List Nat) (max_bytes : Nat) : Option (List Nat) :=
  if text.length ≤ max_bytes then some text
  else if is_char_boundary text max_bytes then
    some (text.take max_bytes ++ truncationMarker)
  else none

/-! ## ExecCommandEnd recording

The `EventMsg::ExecCommandEnd` arm of `spawn_thread_event_drain` records a
`WorkerCommandResult` with the space-joined argv, the exit code, and the
truncated formatted output. -/

/-- The fields of `ExecCommandEnd` used by the drain, with the formatted
output at byte level. -/
structure ExecCommandEndEv where
  command : List String
  exit_code : Int
  formatted_output : List Nat
deriving DecidableEq

/-- A recorded command, with the output at byte level. -/
structure CommandRecord where
  command : String
  exit_code : Option Int
  output : List Nat
deriving DecidableEq

/-- Embedding of the `ExecCommandEnd` arm of `spawn_thread_event_drain`:
`command = ev.command.join(" ")`, `exit_code = Some(ev.exit_code)`,
`output = truncate_output(&ev.formatted_output, 16_384)`.  A panic in
`truncate_output` propagates as `none`. -/
def recordExecCommandEnd (ev : ExecCommandEndEv) : Option CommandRecord :=
  (truncate_output ev.formatted_output 16384).map fun output =>
    { command := String.intercalate " " ev.command
      exit_code := some ev.exit_code
      output := output }

/-! ## Agent status and the final-message wait loop -/

/-- Embedding of `AgentStatus` (`codex_core::protocol::AgentStatus`):
`PendingInit → Running → {Completed | Errored | Shutdown | NotFound}`. -/
inductive AgentStatus where
  | pendingInit
  | running
  | completed (msg : Option String)
  | errored (msg : String)
  | shutdown
  | notFound
deriving DecidableEq

/-- Embedding of `is_final_status`: true exactly on the four terminal
constructors. -/
def is_final_status (status : AgentStatus) : Bool :=
  match status with
  | .completed _ => true
  | .errored _ => true
  | .shutdown => true
  | .notFound => true
  | _ => false

/-- The match inside `wait_for_final_message` that maps a final status to
the returned summary.  The `PendingInit | Running` arm is `unreachable!()`
in the source, modelled as `none`. -/
def statusSummary (status : AgentStatus) : Option String :=
  match status with
  | .completed (some msg) => some msg
  | .completed none => some ""
  | .errored msg => some msg
  | .shutdown => some "shutdown"
  | .notFound => some "not found"
  | .pendingInit => none
  | .running => none

/-- Embedding of the `wait_for_final_message` poll loop over the sequence
of statuses observed at successive polls: return at the first status that
`is_final_status` accepts; a sequence with no final status never returns
(`none`). -/
def wait_for_final_message (polled : List AgentStatus) : Option String :=
  match polled with
  | [] => none
  | status :: rest =>
    if is_final_status status then statusSummary status
    else wait_for_final_message rest

/-! ## Config layer source -/

/-- Embedding of `ConfigLayerSource`
(`core/src/config_loader/config_layer_source.rs`); path-valued fields
(`AbsolutePathBuf`) are modelled as strings. -/
inductive ConfigLayerSource where
  | mdm (domain : String) (key : String)
  | system (file : String)
  | user (file : String)
  | project (dot_codex_folder : String)
  | sessionFlags
  | legacyManagedConfigTomlFromFile (file : String)
  | legacyManagedConfigTomlFromMdm
deriving DecidableEq

/-- Embedding of `ConfigLayerSource::precedence` (an `i16` in the
source). -/
def ConfigLayerSource.precedence (s : ConfigLayerSource) : Int :=
  match s with
  | .mdm _ _ => 0
  | .system _ => 10
  | .user _ => 20
  | .project _ => 25
  | .sessionFlags => 30
  | .legacyManagedConfigTomlFromFile _ => 40
  | .legacyManagedConfigTomlFromMdm => 50

/-- Embedding of the `PartialOrd` impl for `ConfigLayerSource`:
`Some(self.precedence().cmp(&other.precedence()))`. -/
def ConfigLayerSource.precedenceCmp (a b : ConfigLayerSource) : Option Ordering :=
  some (compare a.precedence b.precedence)

/-! ## Prompt construction -/

/-- Embedding of `WorkRequest` (`core/src/agent_tree/ipc.rs`). -/
structure WorkRequest where
  task : String
  context : Option String
  tests : List String
  base_ref : Option String
deriving DecidableEq

/-- Embedding of `build_l2_prompt`: start from `task`, append the context
section when `context` is present with non-whitespace content, then append
the preferred-tests section when `tests` is non-empty, pushing one
`"- " + cmd + "\n"` line per test in order. -/
def build_l2_prompt (request : WorkRequest) : String :=
  let prompt := "" ++ request.task
  let prompt :=
    match request.context with
    | some context =>
      if ¬context.trim.isEmpty then
        prompt ++ "\n\n---\n\n" ++ "Context:\n" ++ context
      else prompt
    | none => prompt
  if ¬request.tests.isEmpty then
    request.tests.foldl (fun acc cmd => acc ++ "- " ++ cmd ++ "\n")
      (prompt ++ "\n\n---\n\n" ++ "Preferred tests:\n")
  else prompt

/-- The context section of the prompt, as the spec describes it:
`"\n\n---\n\nContext:\n" + context` exactly when `context` is present and
not whitespace-only, else empty. -/
def contextSection (request : WorkRequest) : String :=
  match request.context with
  | some context =>
    if ¬context.trim.isEmpty then "\n\n---\n\n" ++ "Context:\n" ++ context
    else ""
  | none => ""

/-- One `"- " + cmd + "\n"` bullet line per command, concatenated in
order. -/
def bulletLines (tests : List String) : String :=
  match tests with
  | [] => ""
  | cmd :: rest => "- " ++ cmd ++ "\n" ++ bulletLines rest

/-- The preferred-tests section of the prompt, as the spec describes it:
`"\n\n---\n\nPreferred tests:\n"` followed by one `"- " + cmd + "\n"` line
per test in order, exactly when `tests` is non-empty, else empty. -/
def testsSection (request : WorkRequest) : String :=
  if ¬request.tests.isEmpty then
    "\n\n---\n\n" ++ "Preferred tests:\n" ++ bulletLines request.tests
  else ""

/-! ## IPC data model (`core/src/agent_tree/ipc.rs`)

Types imported from `codex-protocol` are not part of this repository; they
are modelled from the spec's wire-format table and fixtures (§6, §8). -/

/-- Embedding of `AgentTreeRequestKey`.  `ThreadId` is modelled from the
spec: an opaque unique identifier, represented as a string. -/
structure AgentTreeRequestKey where
  thread_id : String
  event_id : String
deriving DecidableEq

/-- Modelled from the spec: `codex_protocol::request_user_input::RequestUserInputQuestion`
is external; the S2 fixture gives fields `{id, header, question, options}`
with `options` nullable. -/
structure RequestUserInputQuestion where
  id : String
  header : String
  question : String
  options : Option (List String)
deriving DecidableEq

/-- Modelled from the spec: `RequestUserInputArgs` is external; the wire
table gives `args{questions[]}`. -/
structure RequestUserInputArgs where
  questions : List RequestUserInputQuestion
deriving DecidableEq

/-- Modelled from the spec: `RequestUserInputResponse` is external; the
wire table gives `response{answers{}}` and S2 shows a string-to-string
answers map, modelled as an association list. -/
structure RequestUserInputResponse where
  answers : List (String × String)
deriving DecidableEq

/-- Modelled from the spec: `codex_protocol::protocol::ReviewDecision` is
external; a snake_case-serialized approval decision enum with a `Default`
instance. -/
inductive ReviewDecision where
  | approved
  | approvedForSession
  | denied
  | abort
deriving DecidableEq

/-- Modelled from the spec: `ReviewDecision::default()`, the
variant-appropriate default answer for approvals. -/
def ReviewDecision.default : ReviewDecision := .denied

/-- Modelled from the spec: `ExecApprovalRequestEvent` is external; the
wire table gives `event{command,cwd,reason,proposed_execpolicy_amendment}`. -/
structure ExecApprovalRequestEvent where
  command : List String
  cwd : String
  reason : Option String
  proposed_execpolicy_amendment : Option String
deriving DecidableEq

/-- Modelled from the spec: `ApplyPatchApprovalRequestEvent` is external;
the wire table gives `event{changes,reason,grant_root}`, with `changes`
modelled as a path-keyed association list. -/
structure ApplyPatchApprovalRequestEvent where
  changes : List (String × String)
  reason : Option String
  grant_root : Option String
deriving DecidableEq

/-- Embedding of `WorkerCommandResult`. -/
structure WorkerCommandResult where
  command : String
  exit_code : Option Int
  output : String
deriving DecidableEq

/-- Embedding of `WorkerResult`; `PathBuf` is modelled as a string. -/
structure WorkerResult where
  summary : String
  diff : String
  commands : List WorkerCommandResult
  worktree_path : String
deriving DecidableEq

/-- Embedding of `NeedUserInput`. -/
structure NeedUserInput where
  request_key : AgentTreeRequestKey
  args : RequestUserInputArgs
deriving DecidableEq

/-- Embedding of `UserInputAnswer`. -/
structure UserInputAnswer where
  request_key : AgentTreeRequestKey
  response : RequestUserInputResponse
deriving DecidableEq

/-- Embedding of `NeedExecApproval`. -/
structure NeedExecApproval where
  request_key : AgentTreeRequestKey
  event : ExecApprovalRequestEvent
deriving DecidableEq

/-- Embedding of `ExecApprovalAnswer`. -/
structure ExecApprovalAnswer where
  request_key : AgentTreeRequestKey
  decision : ReviewDecision
deriving DecidableEq

/-- Embedding of `NeedPatchApproval`. -/
structure NeedPatchApproval where
  request_key : AgentTreeRequestKey
  event : ApplyPatchApprovalRequestEvent
deriving DecidableEq

/-- Embedding of `PatchApprovalAnswer`. -/
structure PatchApprovalAnswer where
  request_key : AgentTreeRequestKey
  decision : ReviewDecision
deriving DecidableEq

/-- Embedding of `WorkerLogLevel` (`snake_case`-serialized). -/
inductive WorkerLogLevel where
  | debug
  | info
  | warn
  | error
deriving DecidableEq

/-- Embedding of `WorkerLog`. -/
structure WorkerLog where
  level : WorkerLogLevel
  message : String
deriving DecidableEq

/-- Embedding of `WorkerError`. -/
structure WorkerError where
  message : String
deriving DecidableEq

/-- Embedding of the internally tagged IPC union `AgentTreeIpcMessage`
(`#[serde(tag = "type", rename_all = "snake_case")]`). -/
inductive AgentTreeIpcMessage where
  | workRequest (r : WorkRequest)
  | needUserInput (m : NeedUserInput)
  | userInputAnswer (m : UserInputAnswer)
  | needExecApproval (m : NeedExecApproval)
  | execApprovalAnswer (m : ExecApprovalAnswer)
  | needPatchApproval (m : NeedPatchApproval)
  | patchApprovalAnswer (m : PatchApprovalAnswer)
  | workerResult (r : WorkerResult)
  | log (m : WorkerLog)
  | error (e : WorkerError)
deriving DecidableEq

/-- The snake_case wire tag of each variant, as serde derives it from
`rename_all = "snake_case"`. -/
def ipcTag (m : AgentTreeIpcMessage) : String :=
  match m with
  | .workRequest _ => "work_request"
  | .needUserInput _ => "need_user_input"
  | .userInputAnswer _ => "user_input_answer"
  | .needExecApproval _ => "need_exec_approval"
  | .execApprovalAnswer _ => "exec_approval_answer"
  | .needPatchApproval _ => "need_patch_approval"
  | .patchApprovalAnswer _ => "patch_approval_answer"
  | .workerResult _ => "worker_result"
  | .log _ => "log"
  | .error _ => "error"

/-! ## JSON codec model

A small JSON value type and an embedding of the serde encoding that the
`Serialize`/`Deserialize` derives produce for the IPC types: internally
tagged union (`tag = "type"`), struct fields as object members, `Option`
as `null`-or-value, `#[serde(default)]` fields defaulted when missing. -/

/-- JSON values. -/
inductive JVal where
  | null
  | bool (b : Bool)
  | num (n : Int)
  | str (s : String)
  | arr (elems : List JVal)
  | obj (fields : List (String × JVal))

/-- First value bound to a key in a JSON object member list. -/
def jlookup (k : String) : List (String × JVal) → Option JVal
  | [] => none
  | (k', v) :: rest => if k' = k then some v else jlookup k rest

/-- Object field access; `none` on non-objects and missing keys. -/
def JVal.getField (j : JVal) (k : String) : Option JVal :=
  match j with
  | .obj fields => jlookup k fields
  | _ => none

/-- Decode a string. -/
def asStr : JVal → Option String
  | .str s => some s
  | _ => none

/-- Decode an optional string (`null` ↦ `none`). -/
def asOptStr : JVal → Option (Option String)
  | .null => some none
  | .str s => some (some s)
  | _ => none

/-- Decode an optional integer (`null` ↦ `none`). -/
def asOptInt : JVal → Option (Option Int)
  | .null => some none
  | .num n => some (some n)
  | _ => none

/-- Decode every element of a JSON array with `g`, failing if any element
fails. -/
def decodeElems (g : JVal → Option α) : List JVal → Option (List α)
  | [] => some []
  | v :: rest => do
    let a ← g v
    let t ← decodeElems g rest
    some (a :: t)

/-- Decode a JSON array via `decodeElems`. -/
def asList (g : JVal → Option α) : JVal → Option (List α)
  | .arr elems => decodeElems g elems
  | _ => none

/-- Encode a list of strings as a JSON array. -/
def encStrList (xs : List String) : JVal :=
  .arr (xs.map .str)

/-- Encode an optional string (serde serializes `None` as `null`). -/
def encOptStr : Option String → JVal
  | none => .null
  | some s => .str s

/-- Encode an optional integer. -/
def encOptInt : Option Int → JVal
  | none => .null
  | some n => .num n

/-- Encode a string-to-string map as a JSON object. -/
def encStrMap (xs : List (String × String)) : JVal :=
  .obj (xs.map fun p => (p.1, .str p.2))

/-- Decode the member list of a string-to-string JSON object. -/
def decodeStrPairs : List (String × JVal) → Option (List (String × String))
  | [] => some []
  | (k, .str v) :: rest => (decodeStrPairs rest).map ((k, v) :: ·)
  | _ => none

/-- Decode a string-to-string JSON object. -/
def asStrMap : JVal → Option (List (String × String))
  | .obj fields => decodeStrPairs fields
  | _ => none

/-- A required struct field: look it up and decode it. -/
def reqField (j : JVal) (k : String) (g : JVal → Option α) : Option α :=
  (j.getField k).bind g

/-- A `#[serde(default)]` struct field: a missing key decodes to the
default. -/
def optField (j : JVal) (k : String) (g : JVal → Option α) (d : α) : Option α :=
  match j.getField k with
  | none => some d
  | some v => g v

/-! ### Per-struct encoders and decoders -/

/-- Object members of an encoded `AgentTreeRequestKey`. -/
def AgentTreeRequestKey.encFields (k : AgentTreeRequestKey) : List (String × JVal) :=
  [("thread_id", .str k.thread_id), ("event_id", .str k.event_id)]

/-- Encoded `AgentTreeRequestKey`. -/
def AgentTreeRequestKey.toJ (k : AgentTreeRequestKey) : JVal :=
  .obj k.encFields

/-- Decoder for `AgentTreeRequestKey`. -/
def decRequestKey (j : JVal) : Option AgentTreeRequestKey := do
  let thread_id ← reqField j "thread_id" asStr
  let event_id ← reqField j "event_id" asStr
  some ⟨thread_id, event_id⟩

/-- Object members of an encoded `WorkRequest` (`context`, `tests` and
`base_ref` carry `#[serde(default)]`). -/
def WorkRequest.encFields (r : WorkRequest) : List (String × JVal) :=
  [("task", .str r.task), ("context", encOptStr r.context),
   ("tests", encStrList r.tests), ("base_ref", encOptStr r.base_ref)]

/-- Decoder for `WorkRequest`. -/
def decWorkRequest (j : JVal) : Option WorkRequest := do
  let task ← reqField j "task" asStr
  let context ← optField j "context" asOptStr none
  let tests ← optField j "tests" (asList asStr) []
  let base_ref ← optField j "base_ref" asOptStr none
  some ⟨task, context, tests, base_ref⟩

/-- Encoded `RequestUserInputQuestion`. -/
def RequestUserInputQuestion.toJ (q : RequestUserInputQuestion) : JVal :=
  .obj [("id", .str q.id), ("header", .str q.header),
        ("question", .str q.question),
        ("options", match q.options with
         | none => .null
         | some opts => encStrList opts)]

/-- Decoder for `RequestUserInputQuestion`. -/
def decQuestion (j : JVal) : Option RequestUserInputQuestion := do
  let id ← reqField j "id" asStr
  let header ← reqField j "header" asStr
  let question ← reqField j "question" asStr
  let options ← reqField j "options" fun v =>
    match v with
    | .null => some none
    | v => (asList asStr v).map some
  some ⟨id, header, question, options⟩

/-- Object members of an encoded `NeedUserInput`. -/
def NeedUserInput.encFields (m : NeedUserInput) : List (String × JVal) :=
  [("request_key", m.request_key.toJ),
   ("args", .obj [("questions", .arr (m.args.questions.map (·.toJ)))])]

/-- Decoder for `NeedUserInput`. -/
def decNeedUserInput (j : JVal) : Option NeedUserInput := do
  let request_key ← reqField j "request_key" decRequestKey
  let questions ← reqField j "args" fun a => reqField a "questions" (asList decQuestion)
  some ⟨request_key, ⟨questions⟩⟩

/-- Object members of an encoded `UserInputAnswer`. -/
def UserInputAnswer.encFields (m : UserInputAnswer) : List (String × JVal) :=
  [("request_key", m.request_key.toJ),
   ("response", .obj [("answers", encStrMap m.response.answers)])]

/-- Decoder for `UserInputAnswer`. -/
def decUserInputAnswer (j : JVal) : Option UserInputAnswer := do
  let request_key ← reqField j "request_key" decRequestKey
  let answers ← reqField j "response" fun r => reqField r "answers" asStrMap
  some ⟨request_key, ⟨answers⟩⟩

/-- Encoded `ReviewDecision` (snake_case unit variants). -/
def ReviewDecision.toJ (d : ReviewDecision) : JVal :=
  match d with
  | .approved => .str "approved"
  | .approvedForSession => .str "approved_for_session"
  | .denied => .str "denied"
  | .abort => .str "abort"

/-- Decoder for `ReviewDecision`. -/
def decReviewDecision (j : JVal) : Option ReviewDecision :=
  match j with
  | .str "approved" => some .approved
  | .str "approved_for_session" => some .approvedForSession
  | .str "denied" => some .denied
  | .str "abort" => some .abort
  | _ => none

/-- Encoded `ExecApprovalRequestEvent`. -/
def ExecApprovalRequestEvent.toJ (e : ExecApprovalRequestEvent) : JVal :=
  .obj [("command", encStrList e.command), ("cwd", .str e.cwd),
        ("reason", encOptStr e.reason),
        ("proposed_execpolicy_amendment", encOptStr e.proposed_execpolicy_amendment)]

/-- Decoder for `ExecApprovalRequestEvent`. -/
def decExecEvent (j : JVal) : Option ExecApprovalRequestEvent := do
  let command ← reqField j "command" (asList asStr)
  let cwd ← reqField j "cwd" asStr
  let reason ← reqField j "reason" asOptStr
  let amendment ← reqField j "proposed_execpolicy_amendment" asOptStr
  some ⟨command, cwd, reason, amendment⟩

/-- Object members of an encoded `NeedExecApproval`. -/
def NeedExecApproval.encFields (m : NeedExecApproval) : List (String × JVal) :=
  [("request_key", m.request_key.toJ), ("event", m.event.toJ)]

/-- Decoder for `NeedExecApproval`. -/
def decNeedExecApproval (j : JVal) : Option NeedExecApproval := do
  let request_key ← reqField j "request_key" decRequestKey
  let event ← reqField j "event" decExecEvent
  some ⟨request_key, event⟩

/-- Object members of an encoded `ExecApprovalAnswer`. -/
def ExecApprovalAnswer.encFields (m : ExecApprovalAnswer) : List (String × JVal) :=
  [("request_key", m.request_key.toJ), ("decision", m.decision.toJ)]

/-- Decoder for `ExecApprovalAnswer`. -/
def decExecApprovalAnswer (j : JVal) : Option ExecApprovalAnswer := do
  let request_key ← reqField j "request_key" decRequestKey
  let decision ← reqField j "decision" decReviewDecision
  some ⟨request_key, decision⟩

/-- Encoded `ApplyPatchApprovalRequestEvent`. -/
def ApplyPatchApprovalRequestEvent.toJ (e : ApplyPatchApprovalRequestEvent) : JVal :=
  .obj [("changes", encStrMap e.changes), ("reason", encOptStr e.reason),
        ("grant_root", encOptStr e.grant_root)]

/-- Decoder for `ApplyPatchApprovalRequestEvent`. -/
def decPatchEvent (j : JVal) : Option ApplyPatchApprovalRequestEvent := do
  let changes ← reqField j "changes" asStrMap
  let reason ← reqField j "reason" asOptStr
  let grant_root ← reqField j "grant_root" asOptStr
  some ⟨changes, reason, grant_root⟩

/-- Object members of an encoded `NeedPatchApproval`. -/
def NeedPatchApproval.encFields (m : NeedPatchApproval) : List (String × JVal) :=
  [("request_key", m.request_key.toJ), ("event", m.event.toJ)]

/-- Decoder for `NeedPatchApproval`. -/
def decNeedPatchApproval (j : JVal) : Option NeedPatchApproval := do
  let request_key ← reqField j "request_key" decRequestKey
  let event ← reqField j "event" decPatchEvent
  some ⟨request_key, event⟩

/-- Object members of an encoded `PatchApprovalAnswer`. -/
def PatchApprovalAnswer.encFields (m : PatchApprovalAnswer) : List (String × JVal) :=
  [("request_key", m.request_key.toJ), ("decision", m.decision.toJ)]

/-- Decoder for `PatchApprovalAnswer`. -/
def decPatchApprovalAnswer (j : JVal) : Option PatchApprovalAnswer := do
  let request_key ← reqField j "request_key" decRequestKey
  let decision ← reqField j "decision" decReviewDecision
  some ⟨request_key, decision⟩

/-- Encoded `WorkerCommandResult`. -/
def WorkerCommandResult.toJ (c : WorkerCommandResult) : JVal :=
  .obj [("command", .str c.command), ("exit_code", encOptInt c.exit_code),
        ("output", .str c.output)]

/-- Decoder for `WorkerCommandResult`. -/
def decCommandResult (j : JVal) : Option WorkerCommandResult := do
  let command ← reqField j "command" asStr
  let exit_code ← reqField j "exit_code" asOptInt
  let output ← reqField j "output" asStr
  some ⟨command, exit_code, output⟩

/-- Object members of an encoded `WorkerResult`. -/
def WorkerResult.encFields (r : WorkerResult) : List (String × JVal) :=
  [("summary", .str r.summary), ("diff", .str r.diff),
   ("commands", .arr (r.commands.map (·.toJ))),
   ("worktree_path", .str r.worktree_path)]

/-- Decoder for `WorkerResult`. -/
def decWorkerResult (j : JVal) : Option WorkerResult := do
  let summary ← reqField j "summary" asStr
  let diff ← reqField j "diff" asStr
  let commands ← reqField j "commands" (asList decCommandResult)
  let worktree_path ← reqField j "worktree_path" asStr
  some ⟨summary, diff, commands, worktree_path⟩

/-- Encoded `WorkerLogLevel` (snake_case unit variants). -/
def WorkerLogLevel.toJ (l : WorkerLogLevel) : JVal :=
  match l with
  | .debug => .str "debug"
  | .info => .str "info"
  | .warn => .str "warn"
  | .error => .str "error"

/-- Decoder for `WorkerLogLevel`. -/
def decLogLevel (j : JVal) : Option WorkerLogLevel :=
  match j with
  | .str "debug" => some .debug
  | .str "info" => some .info
  | .str "warn" => some .warn
  | .str "error" => some .error
  | _ => none

/-- Object members of an encoded `WorkerLog`. -/
def WorkerLog.encFields (l : WorkerLog) : List (String × JVal) :=
  [("level", l.level.toJ), ("message", .str l.message)]

/-- Decoder for `WorkerLog`. -/
def decWorkerLog (j : JVal) : Option WorkerLog := do
  let level ← reqField j "level" decLogLevel
  let message ← reqField j "message" asStr
  some ⟨level, message⟩

/-- Object members of an encoded `WorkerError`. -/
def WorkerError.encFields (e : WorkerError) : List (String × JVal) :=
  [("message", .str e.message)]

/-- Decoder for `WorkerError`. -/
def decWorkerError (j : JVal) : Option WorkerError := do
  let message ← reqField j "message" asStr
  some ⟨message⟩

/-- Encoding of the internally tagged union: the variant's struct fields
inlined next to a `"type"` member holding the snake_case tag. -/
def encodeIpc (m : AgentTreeIpcMessage) : JVal :=
  .obj (("type", .str (ipcTag m)) ::
    match m with
    | .workRequest r => r.encFields
    | .needUserInput n => n.encFields
    | .userInputAnswer a => a.encFields
    | .needExecApproval n => n.encFields
    | .execApprovalAnswer a => a.encFields
    | .needPatchApproval n => n.encFields
    | .patchApprovalAnswer a => a.encFields
    | .workerResult r => r.encFields
    | .log l => l.encFields
    | .error e => e.encFields)

/-- Decoding of the internally tagged union: dispatch on the `"type"`
member, then decode the variant's fields from the same object. -/
def decodeIpc (j : JVal) : Option AgentTreeIpcMessage := do
  let tag ← reqField j "type" asStr
  if tag = "work_request" then (decWorkRequest j).map .workRequest
  else if tag = "need_user_input" then (decNeedUserInput j).map .needUserInput
  else if tag = "user_input_answer" then (decUserInputAnswer j).map .userInputAnswer
  else if tag = "need_exec_approval" then (decNeedExecApproval j).map .needExecApproval
  else if tag = "exec_approval_answer" then (decExecApprovalAnswer j).map .execApprovalAnswer
  else if tag = "need_patch_approval" then (decNeedPatchApproval j).map .needPatchApproval
  else if tag = "patch_approval_answer" then (decPatchApprovalAnswer j).map .patchApprovalAnswer
  else if tag = "worker_result" then (decWorkerResult j).map .workerResult
  else if tag = "log" then (decWorkerLog j).map .log
  else if tag = "error" then (decWorkerError j).map .error
  else none

/-! ## Pending registries and answer delivery

Each pending registry is a `HashMap<AgentTreeRequestKey, oneshot::Sender<T>>`.
A registry is modelled as an association list from keys to slot
identifiers (`Nat`), with the map invariant that keys are distinct.  A
`tx.send(v)` on a removed sender is modelled by reporting the completed
pair `(slot, v)`. -/

/-- Model of `HashMap::get`: the value bound to the first (on the map
invariant: the only) occurrence of the key. -/
def regLookup (reg : List (AgentTreeRequestKey × Nat)) (k : AgentTreeRequestKey) :
    Option Nat :=
  match reg with
  | [] => none
  | (k', slot) :: rest => if k' = k then some slot else regLookup rest k

/-- Model of `HashMap::remove`: the removed binding, if any, and the
remaining registry. -/
def regRemove (reg : List (AgentTreeRequestKey × Nat)) (k : AgentTreeRequestKey) :
    Option Nat × List (AgentTreeRequestKey × Nat) :=
  match reg with
  | [] => (none, [])
  | (k', slot) :: rest =>
    if k' = k then (some slot, rest)
    else
      let (found, rest') := regRemove rest k
      (found, (k', slot) :: rest')

/-- Generic embedding of `deliver_user_input_answer` /
`deliver_exec_approval_answer` / `deliver_patch_approval_answer`:

```rust
if let Some(tx) = pending.lock().await.remove(&answer.request_key) {
    let _ = tx.send(answer.value);
}
```

Returns the registry after the call together with the completion that
fired: `some (slot, v)` when the key was pending, `none` when the deliver
was a no-op. -/
def deliverAnswer (pending : List (AgentTreeRequestKey × Nat))
    (k : AgentTreeRequestKey) (v : V) :
    List (AgentTreeRequestKey × Nat) × Option (Nat × V) :=
  match regRemove pending k with
  | (some tx, pending') => (pending', some (tx, v))
  | (none, pending') => (pending', none)

/-- Embedding of `deliver_user_input_answer`, instantiating the generic
deliver at the user-input registry and payload. -/
def deliver_user_input_answer (pending : List (AgentTreeRequestKey × Nat))
    (answer : UserInputAnswer) :
    List (AgentTreeRequestKey × Nat) × Option (Nat × RequestUserInputResponse) :=
  deliverAnswer pending answer.request_key answer.response

/-- Embedding of `deliver_exec_approval_answer`. -/
def deliver_exec_approval_answer (pending : List (AgentTreeRequestKey × Nat))
    (answer : ExecApprovalAnswer) :
    List (AgentTreeRequestKey × Nat) × Option (Nat × ReviewDecision) :=
  deliverAnswer pending answer.request_key answer.decision

/-- Embedding of `deliver_patch_approval_answer`. -/
def deliver_patch_approval_answer (pending : List (AgentTreeRequestKey × Nat))
    (answer : PatchApprovalAnswer) :
    List (AgentTreeRequestKey × Nat) × Option (Nat × ReviewDecision) :=
  deliverAnswer pending answer.request_key answer.decision

/-! ## Interactive handlers

`handle_request_user_input`, `handle_exec_approval` and
`handle_patch_approval` all follow the same shape: create a oneshot
channel, insert the sender under the request key, emit the `Need*`
message, await the receiver — substituting the variant default if the
sender was dropped without a send — and submit the answer back into the
agent thread.  The receive outcome is modelled as an `Option` argument:
`some v` when a value was delivered, `none` when the slot was dropped. -/

/-- An operation submitted back into the agent thread (`Op::UserInputAnswer`,
`Op::ExecApproval`, `Op::PatchApproval`). -/
inductive SubmittedOp where
  | userInputAnswer (id : String) (response : RequestUserInputResponse)
  | execApproval (id : String) (decision : ReviewDecision)
  | patchApproval (id : String) (decision : ReviewDecision)
deriving DecidableEq

/-- The observable effects of one interactive handler run. -/
structure HandlerRun (V : Type) where
  /-- Registry after the insert at the top of the handler. -/
  pending' : List (AgentTreeRequestKey × Nat)
  /-- The `Need*` message emitted on stdout. -/
  sent : AgentTreeIpcMessage
  /-- The answer the awaiting side observed (delivered or default). -/
  observed : V
  /-- The operation submitted back into the agent thread. -/
  submitted : SubmittedOp

/-- Embedding of `handle_request_user_input`: insert the slot, emit
`need_user_input`, await with
`unwrap_or_else(|_| RequestUserInputResponse { answers: HashMap::new() })`,
then `submit(Op::UserInputAnswer { id: event_id, response })`. -/
def handle_request_user_input (pending : List (AgentTreeRequestKey × Nat))
    (slot : Nat) (request_key : AgentTreeRequestKey)
    (questions : List RequestUserInputQuestion)
    (rx : Option RequestUserInputResponse) : HandlerRun RequestUserInputResponse :=
  let response := rx.getD ⟨[]⟩
  { pending' := (request_key, slot) :: pending
    sent := .needUserInput ⟨request_key, ⟨questions⟩⟩
    observed := response
    submitted := .userInputAnswer request_key.event_id response }

/-- Embedding of `handle_exec_approval`: insert the slot, emit
`need_exec_approval`, await with `unwrap_or_default()`, then
`submit(Op::ExecApproval { id: event_id, decision })`. -/
def handle_exec_approval (pending : List (AgentTreeRequestKey × Nat))
    (slot : Nat) (request_key : AgentTreeRequestKey)
    (ev : ExecApprovalRequestEvent)
    (rx : Option ReviewDecision) : HandlerRun ReviewDecision :=
  let decision := rx.getD ReviewDecision.default
  { pending' := (request_key, slot) :: pending
    sent := .needExecApproval ⟨request_key, ev⟩
    observed := decision
    submitted := .execApproval request_key.event_id decision }

/-- Embedding of `handle_patch_approval`: insert the slot, emit
`need_patch_approval`, await with `unwrap_or_default()`, then
`submit(Op::PatchApproval { id: event_id, decision })`. -/
def handle_patch_approval (pending : List (AgentTreeRequestKey × Nat))
    (slot : Nat) (request_key : AgentTreeRequestKey)
    (ev : ApplyPatchApprovalRequestEvent)
    (rx : Option ReviewDecision) : HandlerRun ReviewDecision :=
  let decision := rx.getD ReviewDecision.default
  { pending' := (request_key, slot) :: pending
    sent := .needPatchApproval ⟨request_key, ev⟩
    observed := decision
    submitted := .patchApproval request_key.event_id decision }

/-! ## Worker startup: reading the initial `WorkRequest`

The first-line handling at the top of `run` in
`cli/src/agent_tree_worker.rs`.  The outcome of reading and parsing the
first stdin line is one of: end of input before any line, a line that
fails JSON parsing, or a parsed IPC message. -/

/-- Outcome of reading and parsing the first stdin line. -/
inductive FirstLineInput where
  | eof
  | malformed
  | message (m : AgentTreeIpcMessage)
deriving DecidableEq

/-- What the startup code did with the first line: the IPC messages it
wrote to stdout, and either the accepted `WorkRequest` or a fatal error
(`anyhow::bail!` / error propagation, making the worker exit nonzero). -/
structure StartupOutcome where
  emitted : List AgentTreeIpcMessage
  result : Except String WorkRequest

/-- Embedding of the first-line handling in `run`:

* no line at EOF → send `Error("missing WorkRequest")`, then bail;
* JSON parse failure → the `?` on `serde_json::from_str(...).context(...)`
  propagates the error with nothing written to stdout;
* a parsed message of a variant other than `work_request` → send
  `Error("expected work_request, got …")`, then bail;
* a `work_request` message → proceed with the request. -/
def read_work_request (input : FirstLineInput) : StartupOutcome :=
  match input with
  | .eof =>
    { emitted := [.error ⟨"missing WorkRequest"⟩]
      result := .error "missing WorkRequest" }
  | .malformed =>
    { emitted := []
      result := .error "parse WorkRequest JSON" }
  | .message (.workRequest req) =>
    { emitted := []
      result := .ok req }
  | .message other =>
    { emitted := [.error ⟨"expected work_request, got " ++ ipcTag other⟩]
      result := .error "expected WorkRequest" }

/-- Whether an IPC message is an `error` message. -/
def isErrorMsg (m : AgentTreeIpcMessage) : Bool :=
  match m with
  | .error _ => true
  | _ => false

/-! ## Helper lemmas -/

theorem regLookup_eq_none (reg : List (AgentTreeRequestKey × Nat)) (k : AgentTreeRequestKey)
    (h : k ∉ reg.map Prod.fst) : regLookup reg k = none := by
  induction reg with
  | nil => rfl
  | cons p rest ih =>
    obtain ⟨k', slot⟩ := p
    simp only [List.map_cons, List.mem_cons, not_or] at h
    rw [regLookup, if_neg (fun he => h.1 he.symm), ih h.2]

theorem regRemove_of_lookup_none (reg : List (AgentTreeRequestKey × Nat))
    (k : AgentTreeRequestKey) (h : regLookup reg k = none) : regRemove reg k = (none, reg) := by
  induction reg with
  | nil => rfl
  | cons p rest ih =>
    obtain ⟨k', slot⟩ := p
    rw [regLookup] at h
    by_cases he : k' = k
    · rw [if_pos he] at h; exact absurd h (by simp)
    · rw [if_neg he] at h
      rw [regRemove, if_neg he, ih h]

theorem regRemove_of_lookup_some (reg : List (AgentTreeRequestKey × Nat))
    (k : AgentTreeRequestKey) (slot : Nat) (hnd : (reg.map Prod.fst).Nodup)
    (h : regLookup reg k = some slot) :
    ∃ rest, regRemove reg k = (some slot, rest) ∧ regLookup rest k = none := by
  induction reg with
  | nil => exact absurd h (by simp [regLookup])
  | cons p rest ih =>
    obtain ⟨k', s⟩ := p
    simp only [List.map_cons, List.nodup_cons] at hnd
    rw [regLookup] at h
    by_cases he : k' = k
    · rw [if_pos he] at h
      refine ⟨rest, by rw [regRemove, if_pos he, h], ?_⟩
      exact regLookup_eq_none rest k (he ▸ hnd.1)
    · rw [if_neg he] at h
      obtain ⟨rest', hr, hl⟩ := ih hnd.2 h
      refine ⟨(k', s) :: rest', ?_, ?_⟩
      · rw [regRemove, if_neg he, hr]
      · rw [regLookup, if_neg he, hl]

theorem deliver_core (V : Type) (reg : List (AgentTreeRequestKey × Nat))
    (k : AgentTreeRequestKey) (v v' : V) (slot : Nat)
    (hnd : (reg.map Prod.fst).Nodup) (h : regLookup reg k = some slot) :
    (deliverAnswer reg k v).2 = some (slot, v)
    ∧ regLookup (deliverAnswer reg k v).1 k = none
    ∧ deliverAnswer (deliverAnswer reg k v).1 k v' = ((deliverAnswer reg k v).1, none) := by
  obtain ⟨rest, hr, hl⟩ := regRemove_of_lookup_some reg k slot hnd h
  have hd : deliverAnswer reg k v = (rest, some (slot, v)) := by
    rw [deliverAnswer, hr]
  rw [hd]
  refine ⟨rfl, hl, ?_⟩
  rw [deliverAnswer, regRemove_of_lookup_none rest k hl]

theorem deliver_noop (V : Type) (reg : List (AgentTreeRequestKey × Nat))
    (k : AgentTreeRequestKey) (v : V) (h : regLookup reg k = none) :
    deliverAnswer reg k v = (reg, none) := by
  rw [deliverAnswer, regRemove_of_lookup_none reg k h]

theorem foldl_bullets (l : List String) (init : String) :
    l.foldl (fun acc cmd => acc ++ "- " ++ cmd ++ "\n") init = init ++ bulletLines l := by
  induction l generalizing init with
  | nil => rw [List.foldl_nil, bulletLines, String.append_empty]
  | cons a t ih =>
    rw [List.foldl_cons, ih, bulletLines]
    simp [String.append_assoc]

theorem foldl_bullets' (l : List String) (init : String) :
    l.foldl (fun acc cmd => acc ++ ("- " ++ (cmd ++ "\n"))) init = init ++ bulletLines l := by
  simpa [String.append_assoc] using foldl_bullets l init

theorem prompt_main (request : WorkRequest) :
    build_l2_prompt request = request.task ++ contextSection request ++ testsSection request := by
  obtain ⟨task, context, tests, base_ref⟩ := request
  cases context with
  | none =>
    cases tests with
    | nil => simp [build_l2_prompt, contextSection, testsSection]
    | cons a t =>
      simp [build_l2_prompt, contextSection, testsSection, foldl_bullets', bulletLines,
        String.append_assoc, String.empty_append]
  | some c =>
    by_cases hc : c.trim.isEmpty = true
    · cases tests with
      | nil => simp [build_l2_prompt, contextSection, testsSection, hc]
      | cons a t =>
        simp [build_l2_prompt, contextSection, testsSection, hc, foldl_bullets', bulletLines,
          String.append_assoc, String.empty_append]
    · cases tests with
      | nil => simp [build_l2_prompt, contextSection, testsSection, hc, String.append_assoc]
      | cons a t =>
        simp [build_l2_prompt, contextSection, testsSection, hc, foldl_bullets', bulletLines,
          String.append_assoc, String.empty_append]

theorem wait_main (polled : List AgentStatus) (r : String)
    (h : wait_for_final_message polled = some r) :
    ∃ s, s ∈ polled ∧ is_final_status s = true ∧ statusSummary s = some r := by
  induction polled with
  | nil => exact absurd h (by rw [wait_for_final_message]; simp)
  | cons s rest ih =>
    rw [wait_for_final_message] at h
    by_cases hf : is_final_status s = true
    · rw [if_pos hf] at h
      exact ⟨s, List.mem_cons_self s rest, hf, h⟩
    · rw [if_neg hf] at h
      obtain ⟨t, ht, h1, h2⟩ := ih h
      exact ⟨t, List.mem_cons_of_mem s ht, h1, h2⟩

theorem final_isSome (s : AgentStatus) (h : is_final_status s = true) :
    (statusSummary s).isSome = true := by
  cases s with
  | completed m => cases m <;> rfl
  | errored m => rfl
  | shutdown => rfl
  | notFound => rfl
  | pendingInit => simp [is_final_status] at h
  | running => simp [is_final_status] at h

/-- The 16385-byte sequence used to exhibit the byte-slice panic: 16383
ASCII bytes followed by the two-byte UTF-8 encoding of `γ` (U+03B3,
`0xCE 0xB3`), so that byte index 16384 falls inside a character. -/
def c10_bytes : List Nat := List.replicate 16383 97 ++ [206, 179]

theorem c10_len : c10_bytes.length = 16385 := by
  rw [c10_bytes, List.length_append, List.length_replicate]; rfl

theorem c10_get : c10_bytes[16384]? = some 179 := by
  rw [c10_bytes, List.getElem?_append_right (by rw [List.length_replicate]; norm_num),
    List.length_replicate]
  rfl

theorem c10_not_boundary : is_char_boundary c10_bytes 16384 = false := by
  rw [is_char_boundary, if_neg (by norm_num), c10_get]; rfl

theorem c10_truncate : truncate_output c10_bytes 16384 = none := by
  rw [truncate_output, if_neg (by rw [c10_len]; norm_num),
    if_neg (by rw [c10_not_boundary]; simp)]

theorem flatten_replicate_singleton (n : Nat) (a : Nat) :
    (List.replicate n [a]).flatten = List.replicate n a := by
  induction n with
  | zero => rfl
  | succ k ih => simp [List.replicate_succ, ih]

theorem c10_bytes_valid_utf8 :
    c10_bytes = strBytes (String.mk (List.replicate 16383 'a' ++ ['γ'])) := by
  rw [strBytes]
  show c10_bytes = ((List.replicate 16383 'a' ++ ['γ']).map utf8Bytes).flatten
  rw [List.map_append, List.map_replicate, show utf8Bytes 'a' = [97] from rfl,
    List.flatten_append, flatten_replicate_singleton,
    show (['γ'].map utf8Bytes).flatten = [206, 179] from by decide]
  rfl

theorem marker_eq : truncationMarker
    = [10,226,128,166,40,116,114,117,110,99,97,116,101,100,41,226,128,166,10] := by decide

theorem marker_length : truncationMarker.length = 19 := by rw [marker_eq]; rfl

theorem c4_get : (List.replicate 20480 (97:Nat))[16384]? = some 97 := by
  rw [List.getElem?_replicate, if_pos (by norm_num)]

theorem c4_boundary : is_char_boundary (List.replicate 20480 97) 16384 = true := by
  rw [is_char_boundary, if_neg (by norm_num), c4_get]; rfl

theorem c4_truncate : truncate_output (List.replicate 20480 97) 16384
    = some (List.replicate 16384 97 ++ truncationMarker) := by
  rw [truncate_output, if_neg (by rw [List.length_replicate]; norm_num), if_pos c4_boundary,
    List.take_replicate, show (16384 ⊓ 20480) = 16384 from by norm_num]

theorem c4_record : recordExecCommandEnd ⟨["sh"], 0, List.replicate 20480 97⟩
    = some ⟨"sh", some 0, List.replicate 16384 97 ++ truncationMarker⟩ := by
  rw [recordExecCommandEnd]
  show (truncate_output (List.replicate 20480 97) 16384).map _ = _
  rw [c4_truncate]
  rfl

theorem c4_output_len : (List.replicate 16384 (97:Nat) ++ truncationMarker).length
    = 16384 + truncationMarker.length := by
  rw [List.length_append, List.length_replicate]

theorem c4_tail_ne : (List.replicate 16384 (97:Nat) ++ truncationMarker).drop 16382
    ≠ truncationMarker := by
  rw [List.drop_append_eq_append_drop, List.drop_replicate, List.length_replicate]
  norm_num

theorem decodeElems_str (xs : List String) :
    decodeElems asStr (xs.map JVal.str) = some xs := by
  induction xs with
  | nil => rfl
  | cons a t ih => simp [decodeElems, asStr, ih]

theorem decRequestKey_toJ (k : AgentTreeRequestKey) : decRequestKey k.toJ = some k := rfl

theorem decQuestion_toJ (q : RequestUserInputQuestion) : decQuestion q.toJ = some q := by
  obtain ⟨id, header, question, options⟩ := q
  cases options <;>
    simp [decQuestion, RequestUserInputQuestion.toJ, reqField, JVal.getField, jlookup,
      asStr, asList, encStrList, decodeElems_str]

theorem decodeElems_question (qs : List RequestUserInputQuestion) :
    decodeElems decQuestion (qs.map (·.toJ)) = some qs := by
  induction qs with
  | nil => rfl
  | cons q t ih => simp [decodeElems, decQuestion_toJ, ih]

theorem decodeStrPairs_map (xs : List (String × String)) :
    decodeStrPairs (xs.map fun p => (p.1, JVal.str p.2)) = some xs := by
  induction xs with
  | nil => rfl
  | cons a t ih => obtain ⟨k, v⟩ := a; simp [decodeStrPairs, ih]

theorem decReviewDecision_toJ (d : ReviewDecision) : decReviewDecision d.toJ = some d := by
  cases d <;> rfl

theorem decLogLevel_toJ (l : WorkerLogLevel) : decLogLevel l.toJ = some l := by
  cases l <;> rfl

theorem decCommandResult_toJ (c : WorkerCommandResult) : decCommandResult c.toJ = some c := by
  obtain ⟨command, exit_code, output⟩ := c
  cases exit_code <;> rfl

theorem decodeElems_command (cs : List WorkerCommandResult) :
    decodeElems decCommandResult (cs.map (·.toJ)) = some cs := by
  induction cs with
  | nil => rfl
  | cons c t ih => simp [decodeElems, decCommandResult_toJ, ih]

theorem decExecEvent_toJ (e : ExecApprovalRequestEvent) : decExecEvent e.toJ = some e := by
  obtain ⟨command, cwd, reason, amendment⟩ := e
  cases reason <;> cases amendment <;>
    simp [decExecEvent, ExecApprovalRequestEvent.toJ, reqField, JVal.getField, jlookup,
      asStr, asOptStr, encOptStr, asList, encStrList, decodeElems_str]

theorem decPatchEvent_toJ (e : ApplyPatchApprovalRequestEvent) : decPatchEvent e.toJ = some e := by
  obtain ⟨changes, reason, grant_root⟩ := e
  cases reason <;> cases grant_root <;>
    simp [decPatchEvent, ApplyPatchApprovalRequestEvent.toJ, reqField, JVal.getField, jlookup,
      asStr, asOptStr, encOptStr, asStrMap, encStrMap, decodeStrPairs_map]

theorem decode_encode_workRequest (r : WorkRequest) :
    decodeIpc (encodeIpc (.workRequest r)) = some (.workRequest r) := by
  obtain ⟨task, context, tests, base_ref⟩ := r
  cases context <;> cases base_ref <;>
    simp [decodeIpc, encodeIpc, ipcTag, WorkRequest.encFields, JVal.getField, jlookup,
      decWorkRequest, reqField, optField, asStr, asOptStr, encOptStr, encStrList,
      asList, decodeElems_str]

theorem decode_encode_needUserInput (m : NeedUserInput) :
    decodeIpc (encodeIpc (.needUserInput m)) = some (.needUserInput m) := by
  obtain ⟨key, ⟨questions⟩⟩ := m
  simp [decodeIpc, encodeIpc, ipcTag, NeedUserInput.encFields, JVal.getField, jlookup,
    decNeedUserInput, reqField, asStr, asList, decodeElems_question, decRequestKey_toJ]

theorem decode_encode_userInputAnswer (m : UserInputAnswer) :
    decodeIpc (encodeIpc (.userInputAnswer m)) = some (.userInputAnswer m) := by
  obtain ⟨key, ⟨answers⟩⟩ := m
  simp [decodeIpc, encodeIpc, ipcTag, UserInputAnswer.encFields, JVal.getField, jlookup,
    decUserInputAnswer, reqField, asStr, asStrMap, encStrMap, decodeStrPairs_map,
    decRequestKey_toJ]

theorem decode_encode_needExecApproval (m : NeedExecApproval) :
    decodeIpc (encodeIpc (.needExecApproval m)) = some (.needExecApproval m) := by
  obtain ⟨key, ev⟩ := m
  simp [decodeIpc, encodeIpc, ipcTag, NeedExecApproval.encFields, JVal.getField, jlookup,
    decNeedExecApproval, reqField, asStr, decRequestKey_toJ, decExecEvent_toJ]

theorem decode_encode_execApprovalAnswer (m : ExecApprovalAnswer) :
    decodeIpc (encodeIpc (.execApprovalAnswer m)) = some (.execApprovalAnswer m) := by
  obtain ⟨key, d⟩ := m
  simp [decodeIpc, encodeIpc, ipcTag, ExecApprovalAnswer.encFields, JVal.getField, jlookup,
    decExecApprovalAnswer, reqField, asStr, decRequestKey_toJ, decReviewDecision_toJ]

theorem decode_encode_needPatchApproval (m : NeedPatchApproval) :
    decodeIpc (encodeIpc (.needPatchApproval m)) = some (.needPatchApproval m) := by
  obtain ⟨key, ev⟩ := m
  simp [decodeIpc, encodeIpc, ipcTag, NeedPatchApproval.encFields, JVal.getField, jlookup,
    decNeedPatchApproval, reqField, asStr, decRequestKey_toJ, decPatchEvent_toJ]

theorem decode_encode_patchApprovalAnswer (m : PatchApprovalAnswer) :
    decodeIpc (encodeIpc (.patchApprovalAnswer m)) = some (.patchApprovalAnswer m) := by
  obtain ⟨key, d⟩ := m
  simp [decodeIpc, encodeIpc, ipcTag, PatchApprovalAnswer.encFields, JVal.getField, jlookup,
    decPatchApprovalAnswer, reqField, asStr, decRequestKey_toJ, decReviewDecision_toJ]

theorem decode_encode_workerResult (r : WorkerResult) :
    decodeIpc (encodeIpc (.workerResult r)) = some (.workerResult r) := by
  obtain ⟨summary, diff, commands, path⟩ := r
  simp [decodeIpc, encodeIpc, ipcTag, WorkerResult.encFields, JVal.getField, jlookup,
    decWorkerResult, reqField, asStr, asList, decodeElems_command]

theorem decode_encode_log (l : WorkerLog) :
    decodeIpc (encodeIpc (.log l)) = some (.log l) := by
  obtain ⟨level, message⟩ := l
  simp [decodeIpc, encodeIpc, ipcTag, WorkerLog.encFields, JVal.getField, jlookup,
    decWorkerLog, reqField, asStr, decLogLevel_toJ]

theorem decode_encode_error (e : WorkerError) :
    decodeIpc (encodeIpc (.error e)) = some (.error e) := by
  obtain ⟨message⟩ := e
  simp [decodeIpc, encodeIpc, ipcTag, WorkerError.encFields, JVal.getField, jlookup,
    decWorkerError, reqField, asStr]

/-! ## Claims -/

/-- C1: for every RequestKey inserted into a pending registry (the
user-input, exec-approval and patch-approval registries all run the same
deliver code) and every value `v`, a subsequent deliver for that key
removes it from the registry and fires the awaiting slot with exactly
`v`; a deliver for an absent key is a no-op; and a second deliver for the
same key after removal has no effect, so each slot completes at most
once. -/
theorem deliver_answer_correlation :
    (∀ (V : Type) (reg : List (AgentTreeRequestKey × Nat)) (k : AgentTreeRequestKey)
        (v v' : V) (slot : Nat),
      (reg.map Prod.fst).Nodup → regLookup reg k = some slot →
        (deliverAnswer reg k v).2 = some (slot, v)
        ∧ regLookup (deliverAnswer reg k v).1 k = none
        ∧ deliverAnswer (deliverAnswer reg k v).1 k v' = ((deliverAnswer reg k v).1, none))
    ∧ (∀ (V : Type) (reg : List (AgentTreeRequestKey × Nat)) (k : AgentTreeRequestKey) (v : V),
      regLookup reg k = none → deliverAnswer reg k v = (reg, none))
    ∧ (∀ pending answer, deliver_user_input_answer pending answer
        = deliverAnswer pending answer.request_key answer.response)
    ∧ (∀ pending answer, deliver_exec_approval_answer pending answer
        = deliverAnswer pending answer.request_key answer.decision)
    ∧ (∀ pending answer, deliver_patch_approval_answer pending answer
        = deliverAnswer pending answer.request_key answer.decision) :=
  ⟨deliver_core, deliver_noop, fun _ _ => rfl, fun _ _ => rfl, fun _ _ => rfl⟩

/-- Witness for `deliver_answer_correlation` at a one-entry registry. -/
theorem deliver_answer_correlation_witness :
    (deliverAnswer [(AgentTreeRequestKey.mk "t1" "e1", 5)] (AgentTreeRequestKey.mk "t1" "e1")
        (RequestUserInputResponse.mk [("q1", "yes")])).2
      = some (5, RequestUserInputResponse.mk [("q1", "yes")])
    ∧ regLookup (deliverAnswer [(AgentTreeRequestKey.mk "t1" "e1", 5)]
        (AgentTreeRequestKey.mk "t1" "e1") (RequestUserInputResponse.mk [("q1", "yes")])).1
        (AgentTreeRequestKey.mk "t1" "e1") = none
    ∧ deliverAnswer (deliverAnswer [(AgentTreeRequestKey.mk "t1" "e1", 5)]
        (AgentTreeRequestKey.mk "t1" "e1") (RequestUserInputResponse.mk [("q1", "yes")])).1
        (AgentTreeRequestKey.mk "t1" "e1") (RequestUserInputResponse.mk [])
      = ((deliverAnswer [(AgentTreeRequestKey.mk "t1" "e1", 5)]
          (AgentTreeRequestKey.mk "t1" "e1") (RequestUserInputResponse.mk [("q1", "yes")])).1,
         none) :=
  deliver_answer_correlation.1 RequestUserInputResponse _ _ _ _ 5 (by simp) rfl

/-- C2: when the completion slot is dropped without a delivered answer
(modelled by the receive outcome `none`), each interactive handler
observes the variant-appropriate default — an empty answers map for user
input, `ReviewDecision.default` for exec and patch approvals — and still
submits that default answer into the agent thread. -/
theorem handler_default_on_cancel :
    ∀ (pending : List (AgentTreeRequestKey × Nat)) (slot : Nat)
      (key : AgentTreeRequestKey) (questions : List RequestUserInputQuestion)
      (evE : ExecApprovalRequestEvent) (evP : ApplyPatchApprovalRequestEvent),
      ((handle_request_user_input pending slot key questions none).observed
          = RequestUserInputResponse.mk []
        ∧ (handle_request_user_input pending slot key questions none).submitted
          = SubmittedOp.userInputAnswer key.event_id (RequestUserInputResponse.mk []))
      ∧ ((handle_exec_approval pending slot key evE none).observed = ReviewDecision.default
        ∧ (handle_exec_approval pending slot key evE none).submitted
          = SubmittedOp.execApproval key.event_id ReviewDecision.default)
      ∧ ((handle_patch_approval pending slot key evP none).observed = ReviewDecision.default
        ∧ (handle_patch_approval pending slot key evP none).submitted
          = SubmittedOp.patchApproval key.event_id ReviewDecision.default) :=
  fun _ _ _ _ _ _ => ⟨⟨rfl, rfl⟩, ⟨rfl, rfl⟩, ⟨rfl, rfl⟩⟩

/-- Counterexample to C3 as stated: for the 16385-byte input whose byte
index 16384 falls inside a multi-byte character, `truncate_output`
panics (returns no result) instead of returning the first 16384 bytes
followed by the marker. -/
theorem truncate_output_claim_counterexample :
    16384 < c10_bytes.length ∧ truncate_output c10_bytes 16384 = none :=
  ⟨by rw [c10_len]; norm_num, c10_truncate⟩

/-- C3 (amended): for every byte string `text`, if `text` is at most
16384 bytes then `truncate_output text 16384` returns `text` unchanged;
if `text` is longer and byte index 16384 is a character boundary the
result is the first 16384 bytes followed by the marker; if byte index
16384 is not a character boundary the slice panics and there is no
result. -/
theorem truncate_output_amended :
    ∀ text : List Nat,
      (text.length ≤ 16384 → truncate_output text 16384 = some text)
      ∧ (16384 < text.length → is_char_boundary text 16384 = true →
          truncate_output text 16384 = some (text.take 16384 ++ truncationMarker))
      ∧ (16384 < text.length → is_char_boundary text 16384 = false →
          truncate_output text 16384 = none) := by
  intro text
  refine ⟨fun h => ?_, fun h hb => ?_, fun h hb => ?_⟩
  · rw [truncate_output, if_pos h]
  · rw [truncate_output, if_neg (by omega), if_pos hb]
  · rw [truncate_output, if_neg (by omega), if_neg (by rw [hb]; simp)]

/-- Witness for `truncate_output_amended` on a short input. -/
theorem truncate_output_amended_witness :
    truncate_output [97] 16384 = some [97] :=
  (truncate_output_amended [97]).1 (by norm_num)

/-- Counterexample to C4 as stated: for a 20480-byte formatted output the
recorded output does have total length `16384 + len(marker)`, but its
final 21 bytes are not the truncation marker — the marker is 19 bytes
long, so the last 21 bytes start with two content bytes. -/
theorem exec_truncation_counterexample :
    recordExecCommandEnd ⟨["sh"], 0, List.replicate 20480 97⟩
      = some ⟨"sh", some 0, List.replicate 16384 97 ++ truncationMarker⟩
    ∧ (List.replicate 16384 (97:Nat) ++ truncationMarker).length
      = 16384 + truncationMarker.length
    ∧ (List.replicate 16384 (97:Nat) ++ truncationMarker).drop
        ((List.replicate 16384 (97:Nat) ++ truncationMarker).length - 21)
      ≠ truncationMarker := by
  refine ⟨c4_record, c4_output_len, ?_⟩
  have h21 : 16384 + truncationMarker.length - 21 = 16382 := by rw [marker_length]
  rw [c4_output_len, h21]
  exact c4_tail_ne

/-- C4 (amended): for an `ExecCommandEnd` event whose formatted output is
20480 bytes with a character boundary at byte 16384, the recorded
`WorkerCommandResult.output` has total length `16384 + 19` and its final
19 bytes — the marker is 19 bytes long, `…` being three UTF-8 bytes —
are the literal truncation marker. -/
theorem exec_truncation_amended :
    ∀ ev : ExecCommandEndEv, ev.formatted_output.length = 20480 →
      is_char_boundary ev.formatted_output 16384 = true →
      ∃ rec, recordExecCommandEnd ev = some rec
        ∧ truncationMarker.length = 19
        ∧ rec.output.length = 16384 + truncationMarker.length
        ∧ rec.output.drop 16384 = truncationMarker := by
  intro ev hlen hb
  have htr : truncate_output ev.formatted_output 16384
      = some (ev.formatted_output.take 16384 ++ truncationMarker) := by
    rw [truncate_output, if_neg (by omega), if_pos hb]
  have htk : (ev.formatted_output.take 16384).length = 16384 := by
    rw [List.length_take, hlen]; norm_num
  refine ⟨⟨String.intercalate " " ev.command, some ev.exit_code,
    ev.formatted_output.take 16384 ++ truncationMarker⟩, ?_, marker_length, ?_, ?_⟩
  · rw [recordExecCommandEnd, htr]; rfl
  · show (ev.formatted_output.take 16384 ++ truncationMarker).length = _
    rw [List.length_append, htk]
  · show (ev.formatted_output.take 16384 ++ truncationMarker).drop 16384 = _
    have hnil : (ev.formatted_output.take 16384).drop 16384 = [] :=
      List.drop_eq_nil_of_le (by rw [htk])
    rw [List.drop_append_eq_append_drop, hnil, htk, List.nil_append, Nat.sub_self,
      List.drop_zero]

/-- Witness for `exec_truncation_amended` at a concrete all-ASCII 20480-byte
output. -/
theorem exec_truncation_amended_witness :
    ∃ rec, recordExecCommandEnd ⟨["echo"], 0, List.replicate 20480 97⟩ = some rec
      ∧ truncationMarker.length = 19
      ∧ rec.output.length = 16384 + truncationMarker.length
      ∧ rec.output.drop 16384 = truncationMarker :=
  exec_truncation_amended ⟨["echo"], 0, List.replicate 20480 97⟩
    (List.length_replicate 20480 97) c4_boundary

/-- C5: `build_l2_prompt` is the task followed by the context section —
present exactly when `context` is present with non-whitespace content —
followed by the preferred-tests section — present exactly when `tests` is
non-empty, one bullet line per test in order — with nothing else; and it
is a deterministic function of `(task, context, tests)` alone. -/
theorem build_l2_prompt_deterministic_sections :
    (∀ request : WorkRequest,
      build_l2_prompt request = request.task ++ contextSection request ++ testsSection request)
    ∧ (∀ r1 r2 : WorkRequest, r1.task = r2.task → r1.context = r2.context →
        r1.tests = r2.tests → build_l2_prompt r1 = build_l2_prompt r2) := by
  refine ⟨prompt_main, fun r1 r2 h1 h2 h3 => ?_⟩
  rw [prompt_main r1, prompt_main r2, h1]
  have hc : contextSection r1 = contextSection r2 := by
    simp only [contextSection, h2]
  have ht : testsSection r1 = testsSection r2 := by
    simp only [testsSection, h3]
  rw [hc, ht]

/-- Witness for `build_l2_prompt_deterministic_sections`: two requests
differing only in `base_ref` produce the same prompt. -/
theorem build_l2_prompt_deterministic_sections_witness :
    build_l2_prompt ⟨"t", none, [], none⟩ = build_l2_prompt ⟨"t", none, [], some "HEAD"⟩ :=
  build_l2_prompt_deterministic_sections.2 ⟨"t", none, [], none⟩ ⟨"t", none, [], some "HEAD"⟩
    rfl rfl rfl

/-- C6: `wait_for_final_message` returns only at a status accepted by
`is_final_status`, mapping `Completed(Some msg) ↦ msg`,
`Completed(None) ↦ ""`, `Errored(msg) ↦ msg`, `Shutdown ↦ "shutdown"`,
`NotFound ↦ "not found"`; no summary is derived from `PendingInit` or
`Running`, and every final status has a summary, so the `unreachable!`
arm cannot fire under the guard. -/
theorem wait_for_final_message_terminal_only :
    (∀ (polled : List AgentStatus) (r : String), wait_for_final_message polled = some r →
      ∃ s, s ∈ polled ∧ is_final_status s = true ∧ statusSummary s = some r)
    ∧ (∀ m, statusSummary (.completed (some m)) = some m)
    ∧ statusSummary (.completed none) = some ""
    ∧ (∀ m, statusSummary (.errored m) = some m)
    ∧ statusSummary .shutdown = some "shutdown"
    ∧ statusSummary .notFound = some "not found"
    ∧ statusSummary .pendingInit = none
    ∧ statusSummary .running = none
    ∧ (∀ s, is_final_status s = true → (statusSummary s).isSome = true) :=
  ⟨wait_main, fun _ => rfl, rfl, fun _ => rfl, rfl, rfl, rfl, rfl, final_isSome⟩

/-- Witness for `wait_for_final_message_terminal_only` on a poll sequence
that reaches `Shutdown` after one non-final status. -/
theorem wait_for_final_message_terminal_only_witness :
    ∃ s, s ∈ [AgentStatus.pendingInit, AgentStatus.shutdown] ∧ is_final_status s = true
      ∧ statusSummary s = some "shutdown" :=
  wait_for_final_message_terminal_only.1 [.pendingInit, .shutdown] "shutdown" rfl

/-- Counterexample to C7 as stated: a malformed-JSON first line makes the
worker terminate with an error, but no error IPC message is emitted on
stdout — the parse failure propagates via `?` before any `send`. -/
theorem startup_malformed_no_error_emitted :
    (read_work_request .malformed).emitted = []
    ∧ (read_work_request .malformed).result = .error "parse WorkRequest JSON" :=
  ⟨rfl, rfl⟩

/-- C7 (amended): a missing first line (EOF) and a first line parsing to
a non-`work_request` variant each emit an error IPC message and terminate
the worker with an error; a malformed-JSON first line terminates the
worker with an error but emits nothing; a `work_request` first line is
accepted with nothing emitted. -/
theorem startup_first_line_amended :
    ((read_work_request .eof).emitted.any isErrorMsg = true
      ∧ ∃ e, (read_work_request .eof).result = .error e)
    ∧ (∀ m : AgentTreeIpcMessage, (∀ r, m ≠ .workRequest r) →
        (read_work_request (.message m)).emitted.any isErrorMsg = true
        ∧ ∃ e, (read_work_request (.message m)).result = .error e)
    ∧ ((read_work_request .malformed).emitted = []
      ∧ ∃ e, (read_work_request .malformed).result = .error e)
    ∧ (∀ r : WorkRequest, read_work_request (.message (.workRequest r))
        = ⟨[], .ok r⟩) := by
  refine ⟨⟨rfl, "missing WorkRequest", rfl⟩, ?_, ⟨rfl, "parse WorkRequest JSON", rfl⟩,
    fun r => rfl⟩
  intro m hm
  cases m with
  | workRequest r => exact absurd rfl (hm r)
  | needUserInput n => exact ⟨rfl, _, rfl⟩
  | userInputAnswer a => exact ⟨rfl, _, rfl⟩
  | needExecApproval n => exact ⟨rfl, _, rfl⟩
  | execApprovalAnswer a => exact ⟨rfl, _, rfl⟩
  | needPatchApproval n => exact ⟨rfl, _, rfl⟩
  | patchApprovalAnswer a => exact ⟨rfl, _, rfl⟩
  | workerResult r => exact ⟨rfl, _, rfl⟩
  | log l => exact ⟨rfl, _, rfl⟩
  | error e => exact ⟨rfl, _, rfl⟩

/-- Witness for `startup_first_line_amended`: a first line carrying a
`log` message is rejected with an emitted error. -/
theorem startup_first_line_amended_witness :
    (read_work_request (.message (.log ⟨.info, "hi"⟩))).emitted.any isErrorMsg = true
    ∧ ∃ e, (read_work_request (.message (.log ⟨.info, "hi"⟩))).result = .error e :=
  startup_first_line_amended.2.1 (.log ⟨.info, "hi"⟩) (fun _ h => nomatch h)

/-- C8: decoding the encoding of any IPC message yields the message back,
the encoded object carries a `"type"` field holding the snake_case
variant tag, and in particular `work_request` and `need_user_input`
messages carry those exact tags. -/
theorem ipc_tag_round_trip :
    (∀ m : AgentTreeIpcMessage, decodeIpc (encodeIpc m) = some m)
    ∧ (∀ m : AgentTreeIpcMessage, (encodeIpc m).getField "type" = some (.str (ipcTag m)))
    ∧ (∀ r : WorkRequest,
        (encodeIpc (.workRequest r)).getField "type" = some (.str "work_request"))
    ∧ (∀ n : NeedUserInput,
        (encodeIpc (.needUserInput n)).getField "type" = some (.str "need_user_input")) := by
  refine ⟨?_, ?_, fun _ => rfl, fun _ => rfl⟩
  · intro m
    cases m with
    | workRequest r => exact decode_encode_workRequest r
    | needUserInput n => exact decode_encode_needUserInput n
    | userInputAnswer a => exact decode_encode_userInputAnswer a
    | needExecApproval n => exact decode_encode_needExecApproval n
    | execApprovalAnswer a => exact decode_encode_execApprovalAnswer a
    | needPatchApproval n => exact decode_encode_needPatchApproval n
    | patchApprovalAnswer a => exact decode_encode_patchApprovalAnswer a
    | workerResult r => exact decode_encode_workerResult r
    | log l => exact decode_encode_log l
    | error e => exact decode_encode_error e
  · intro m
    cases m <;> rfl

/-- C9: under the comparison defined by precedence, the config layer
sources are strictly ordered `Mdm < System < User < Project <
SessionFlags < LegacyManagedConfigTomlFromFile <
LegacyManagedConfigTomlFromMdm` for all field values, and the comparison
always returns `some`. -/
theorem config_layer_precedence_ordering :
    (∀ domain key file,
      ConfigLayerSource.precedenceCmp (.mdm domain key) (.system file) = some .lt)
    ∧ (∀ f g, ConfigLayerSource.precedenceCmp (.system f) (.user g) = some .lt)
    ∧ (∀ f g, ConfigLayerSource.precedenceCmp (.user f) (.project g) = some .lt)
    ∧ (∀ f, ConfigLayerSource.precedenceCmp (.project f) .sessionFlags = some .lt)
    ∧ (∀ f, ConfigLayerSource.precedenceCmp .sessionFlags
        (.legacyManagedConfigTomlFromFile f) = some .lt)
    ∧ (∀ f, ConfigLayerSource.precedenceCmp (.legacyManagedConfigTomlFromFile f)
        .legacyManagedConfigTomlFromMdm = some .lt)
    ∧ (∀ a b, (ConfigLayerSource.precedenceCmp a b).isSome = true) :=
  ⟨fun _ _ _ => rfl, fun _ _ => rfl, fun _ _ => rfl, fun _ => rfl, fun _ => rfl, fun _ => rfl,
   fun _ _ => rfl⟩

/-- C10: `truncate_output` is not total over UTF-8 strings: `c10_bytes`
is the UTF-8 encoding of an actual string (16383 ASCII characters
followed by `γ`), is longer than 16384 bytes, has no character boundary
at byte 16384, and `truncate_output` panics on it (no result). -/
theorem truncate_output_not_total :
    c10_bytes = strBytes (String.mk (List.replicate 16383 'a' ++ ['γ']))
    ∧ 16384 < c10_bytes.length
    ∧ is_char_boundary c10_bytes 16384 = false
    ∧ truncate_output c10_bytes 16384 = none :=
  ⟨c10_bytes_valid_utf8, by rw [c10_len]; norm_num, c10_not_boundary, c10_truncate⟩

end RealmX
